import Mathlib

/-!
# Verification of the CSV-Table-View parsing and incremental-load pipeline

Shallow embedding of the delimited-text core of the CSV-Table-View
repository:

* `countDelimiterOccurrences`, `detectDelimiter`, `getDelimiterName`
  from `src/utils/delimiter.ts`;
* `parseCSV`, `estimateRowCount`, `getSample`, `validateCSV`
  from `src/utils/csvParser.ts`;
* `loadCsvFile`, `loadMoreRows` (the pure core of the editor provider's
  message handlers, stripped of file I/O and webview transport).

`parseCSV` delegates record/field splitting to the external PapaParse
library, whose source is not part of the repository; that splitter is
modelled from the specification (RFC-4180-style quoting, greedy blank-line
removal, `preview` record cap) — see `splitRecordsAux`, `splitFieldsAux`
and `papaParse` below. Per-row parse anomalies (`parseErrors`) are not
modelled: no verified property concerns them.

JavaScript strings are modelled as Lean `String` (a list of characters);
JavaScript numbers appearing here are nonnegative integers, modelled as
`Nat` (the one fractional computation, `x * 0.1` in `validateCSV` and the
ratio in `estimateRowCount`, is modelled by exact integer arithmetic, which
agrees with the IEEE evaluation on the integer comparisons performed).
-/

namespace CsvTableView

/-- JavaScript whitespace as relevant to this pipeline (`trim()` on
delimiter-separated text): space, tab, carriage return, line feed.
(JavaScript `trim` also strips other Unicode whitespace; the pipeline's
blank-line tests only ever meet these.) -/
def isJsWs (c : Char) : Bool :=
  c = ' ' || c = '\t' || c = '\r' || c = '\n'

/-- JavaScript `line.trim()`: the line with leading and trailing
whitespace removed. -/
def trimChars (l : List Char) : List Char :=
  ((l.dropWhile isJsWs).reverse.dropWhile isJsWs).reverse

/-- JavaScript `content.split('\n')`: the segments of the character list
between `'\n'` characters (an empty string yields one empty segment, a
trailing `'\n'` yields a trailing empty segment, as in JavaScript). -/
def splitLines : List Char → List (List Char)
  | [] => [[]]
  | c :: rest =>
    if c = '\n' then [] :: splitLines rest
    else
      match splitLines rest with
      | [] => [[c]]
      | line :: lines => (c :: line) :: lines

/-- JavaScript `lineArray.join('\n')`: the segments rejoined with `'\n'`
between consecutive segments. -/
def joinLines : List (List Char) → List Char
  | [] => []
  | [l] => l
  | l :: ls => l ++ '\n' :: joinLines ls

/-- From `src/utils/delimiter.ts` (`countDelimiterOccurrences` loop body):
walks the characters of a line; on `"` it skips a doubled `""` pair,
otherwise toggles the in-quotes flag; counts the delimiter only outside
quotes. -/
def countDelimAux (d : Char) : List Char → Bool → Nat
  | [], _ => 0
  | '"' :: '"' :: rest, inQuotes => countDelimAux d rest inQuotes
  | '"' :: rest, inQuotes => countDelimAux d rest (!inQuotes)
  | c :: rest, inQuotes =>
    if c = d && !inQuotes then 1 + countDelimAux d rest inQuotes
    else countDelimAux d rest inQuotes

/-- `countDelimiterOccurrences(line, delimiter)` from
`src/utils/delimiter.ts`: number of occurrences of the delimiter in the
line outside quoted spans. -/
def countDelimiterOccurrences (line : String) (d : Char) : Nat :=
  countDelimAux d line.data false

/-- Scoring of one candidate delimiter from the count per sampled line,
`src/utils/delimiter.ts` lines 43–60: with at least two lines, a
consistent nonzero count `first` scores `first * 100`, an inconsistent
nonzero first count scores `first * 10`, otherwise 0; with exactly one
line the count itself is the score. -/
def scoreOf (counts : List Nat) : Nat :=
  match counts with
  | [] => 0
  | first :: rest =>
    if rest.isEmpty then first
    else if counts.all (fun c => c = first) && decide (first > 0) then first * 100
    else if first > 0 then first * 10
    else 0

/-- The `"auto"` path of `detectDelimiter` from `src/utils/delimiter.ts`:
the first 5 lines of the sample are filtered to the non-blank ones and
each candidate in `, ; tab |` is scored by `scoreOf`; the candidate with
the strictly highest score wins (iteration in declaration order keeps the
earlier candidate on ties, and comma is the default when every score is
0 or no non-blank line exists). -/
def detectAuto (sample : String) : String :=
  let lines := ((splitLines sample.data).take 5).filter (fun line => trimChars line ≠ [])
  if lines.length = 0 then ","
  else
    let delimiters : List Char := [',', ';', '\t', '|']
    let scores := delimiters.map
      (fun d => (d, scoreOf (lines.map (fun line => countDelimAux d line false))))
    let best := scores.foldl (fun acc e => if e.2 > acc.2 then e else acc) (',', 0)
    String.singleton best.1

/-- `detectDelimiter(sample, configuredDelimiter)` from
`src/utils/delimiter.ts`: a non-`"auto"` configuration is returned
verbatim (a literal `\t` escape sequence becomes a tab character) without
inspecting the sample; otherwise the sample is scored by `detectAuto`. -/
def detectDelimiter (sample : String) (configuredDelimiter : String) : String :=
  if configuredDelimiter ≠ "auto" then
    if configuredDelimiter = "\\t" then "\t" else configuredDelimiter
  else detectAuto sample

/-- `getDelimiterName(delimiter)` from `src/utils/delimiter.ts`. -/
def getDelimiterName (d : Char) : String :=
  if d = ',' then "Comma"
  else if d = ';' then "Semicolon"
  else if d = '\t' then "Tab"
  else if d = '|' then "Pipe"
  else "Custom"

/-- Modelled from the spec: the record splitter of the external PapaParse
library (not in the repository). Splits the text into records at line
breaks outside quoted spans; `""` inside a quoted span is an escaped quote
and does not end the span. Quote characters are kept in the record text;
`splitFieldsAux` consumes them. `acc` is the reversed text of the record
being built. -/
def splitRecordsAux : List Char → Bool → List Char → List (List Char)
  | [], _, acc => [acc.reverse]
  | '"' :: '"' :: rest, true, acc => splitRecordsAux rest true ('"' :: '"' :: acc)
  | '"' :: rest, inQuotes, acc => splitRecordsAux rest (!inQuotes) ('"' :: acc)
  | c :: rest, inQuotes, acc =>
    if c = '\n' && !inQuotes then acc.reverse :: splitRecordsAux rest false []
    else splitRecordsAux rest inQuotes (c :: acc)

/-- Modelled from the spec: the field splitter of the external PapaParse
library (not in the repository). Splits one record into fields at the
delimiter outside quoted spans; a field may be wrapped in `"`, inside
which delimiter and newline characters are literal and `""` is an escaped
literal quote. `acc` is the reversed content of the field being built. -/
def splitFieldsAux (d : Char) : List Char → Bool → List Char → List (List Char)
  | [], _, acc => [acc.reverse]
  | '"' :: '"' :: rest, true, acc => splitFieldsAux d rest true ('"' :: acc)
  | '"' :: rest, inQuotes, acc => splitFieldsAux d rest (!inQuotes) acc
  | c :: rest, inQuotes, acc =>
    if c = d && !inQuotes then acc.reverse :: splitFieldsAux d rest inQuotes []
    else splitFieldsAux d rest inQuotes (c :: acc)

/-- Modelled from the spec: the record production of PapaParse as
configured by `parseCSV` — split into records at line breaks outside
quotes, skip blank lines greedily (whitespace-only lines produce no
record), split each remaining record into fields. -/
def parseRecords (content : String) (d : Char) : List (List String) :=
  (((splitRecordsAux content.data false []).filter
      (fun l => trimChars l ≠ [])).map
    (fun l => (splitFieldsAux d l false []).map String.mk))

/-- Modelled from the spec: `Papa.parse` with the options `parseCSV`
passes. A positive `preview` stops after producing that many records; the
spec states that the `preview` of 0 passed when `maxRows = 0` parses only
far enough to get the header, so it yields at most one record. -/
def papaParse (content : String) (d : Char) (preview : Nat) : List (List String) :=
  let recs := parseRecords content d
  if preview > 0 then recs.take preview else recs.take 1

/-- `ParseResult` from `src/utils/csvParser.ts` (the `errors` field is not
modelled; no verified property concerns it). -/
structure ParseResult where
  data : List (List String)
  headers : List String
  totalRows : Nat
  deriving Repr, DecidableEq

/-- `parseCSV(content, options)` from `src/utils/csvParser.ts`: parses
with `preview = maxRows + 1` when `maxRows > 0` (the `+1` accounts for the
header) and `preview = 0` otherwise; the first produced record becomes
`headers`, the remaining records become `data`, and `totalRows` is the
number of data rows. -/
def parseCSV (content : String) (delimiter : Char) (maxRows : Nat) : ParseResult :=
  let allRows := papaParse content delimiter (if maxRows > 0 then maxRows + 1 else 0)
  let headers := allRows.headD []
  let data := allRows.drop 1
  { data := data, headers := headers, totalRows := data.length }

/-- `estimateRowCount(content)` from `src/utils/csvParser.ts`: counts the
newlines in the first `min(|content|, 10000)` characters; zero newlines
give 1, otherwise the count is linearly extrapolated to the full length
and floored at 1. The JavaScript expression
`Math.floor((content.length / sampleSize) * newlinesInSample)` is modelled
by exact integer arithmetic `content.length * newlines / sampleSize`. -/
def estimateRowCount (content : String) : Nat :=
  let sampleSize := min content.length 10000
  let sample := content.data.take sampleSize
  let newlinesInSample := (sample.filter (fun c => c = '\n')).length
  if newlinesInSample = 0 then 1
  else max 1 (content.length * newlinesInSample / sampleSize)

/-- `getSample(content, lines)` from `src/utils/csvParser.ts`: the first
`lines` newline-separated lines of the content, rejoined. -/
def getSample (content : String) (lines : Nat) : String :=
  String.mk (joinLines ((splitLines content.data).take lines))

/-- The result type of `validateCSV` from `src/utils/csvParser.ts`. -/
structure ValidationResult where
  valid : Bool
  message : Option String
  deriving Repr, DecidableEq

/-- `validateCSV(parseResult)` from `src/utils/csvParser.ts`: invalid with
a "no headers" message when `headers` is empty, invalid with a "no data
rows" message when `data` is empty, invalid with an "inconsistent column
counts" message when the number of rows whose field count differs from the
header count exceeds 10% of the data rows (`count > totalRows * 0.1`,
modelled as `10 * count > totalRows`), and valid otherwise. -/
def validateCSV (pr : ParseResult) : ValidationResult :=
  if pr.headers.length = 0 then
    { valid := false, message := some "CSV file appears to be empty or has no headers" }
  else if pr.data.length = 0 then
    { valid := false, message := some "CSV file has headers but no data rows" }
  else
    let expectedColumns := pr.headers.length
    let inconsistentRows := pr.data.filter (fun row => row.length ≠ expectedColumns)
    if 10 * inconsistentRows.length > pr.data.length then
      { valid := false
        message := some ("Many rows have inconsistent column counts. Expected "
          ++ toString expectedColumns ++ " columns.") }
    else { valid := true, message := none }

/-- The delimiter string produced by `detectDelimiter` is handed to
`Papa.parse` as a single separator character (the spec's `Delimiter`
invariant: exactly one character). -/
def delimChar (s : String) : Char :=
  s.data.headD ','

/-- The delimiter the pipeline uses for a given text and configuration:
`detectDelimiter(getSample(text, 10), configDelimiter)`, as computed
identically by `loadCsvFile` and `loadMoreRows` in the editor provider. -/
def pipelineDelimiter (textContent : String) (configDelimiter : String) : Char :=
  delimChar (detectDelimiter (getSample textContent 10) configDelimiter)

/-- The success payload of the editor provider's `csvData` message
(file-name and file-size metadata, which are pure I/O glue, omitted). -/
structure CsvData where
  headers : List String
  rows : List (List String)
  totalRows : Nat
  estimatedTotal : Nat
  delimiterName : String
  hasMore : Bool
  deriving Repr, DecidableEq

/-- The pure core of `loadCsvFile` from the editor provider (file reading,
size gating and message transport stripped): an empty or whitespace-only
text is an error; otherwise the text is parsed with the detected delimiter
and validated, a failed validation is an error carrying the validator's
message, and on success the parsed table is returned together with the
estimated total and `hasMore = (totalRows ≥ maxRows)`. -/
def loadCsvFile (textContent : String) (configDelimiter : String) (maxRows : Nat) :
    Except String CsvData :=
  if trimChars textContent.data = [] then .error "File is empty"
  else
    let delimiter := pipelineDelimiter textContent configDelimiter
    let parseResult := parseCSV textContent delimiter maxRows
    let validation := validateCSV parseResult
    if validation.valid = false then
      .error (validation.message.getD "Invalid CSV format")
    else
      .ok { headers := parseResult.headers
            rows := parseResult.data
            totalRows := parseResult.totalRows
            estimatedTotal := estimateRowCount textContent
            delimiterName := getDelimiterName delimiter
            hasMore := decide (parseResult.totalRows ≥ maxRows) }

/-- The payload of the editor provider's `moreRows` message. -/
structure MoreRows where
  rows : List (List String)
  hasMore : Bool
  deriving Repr, DecidableEq

/-- The pure core of `loadMoreRows` from the editor provider: re-detects
the delimiter, re-parses with cap `currentRows + batchSize` (the source
fixes `batchSize = 5000`), and returns the data rows from index
`currentRows` on together with `hasMore = (totalRows ≥ currentRows +
batchSize)`. -/
def loadMoreRows (textContent : String) (configDelimiter : String)
    (currentRows : Nat) (batchSize : Nat) : MoreRows :=
  let delimiter := pipelineDelimiter textContent configDelimiter
  let parseResult := parseCSV textContent delimiter (currentRows + batchSize)
  { rows := parseResult.data.drop currentRows
    hasMore := decide (parseResult.totalRows ≥ currentRows + batchSize) }

/-! ## Helper lemmas -/

/-- The head of a `take (n+1)` prefix is the head of the list. -/
theorem headD_take {α : Type} (l : List α) (n : Nat) (a : α) :
    (l.take (n + 1)).headD a = l.headD a := by
  cases l <;> simp

/-- `papaParse` with a positive preview is a `take` of the produced
records. -/
theorem papaParse_pos (t : String) (d : Char) {p : Nat} (hp : 0 < p) :
    papaParse t d p = (parseRecords t d).take p := by
  simp [papaParse, hp]

/-- Unfolding of `parseCSV` for a positive row cap. -/
theorem parseCSV_unfold (t : String) (d : Char) (m : Nat) (hm : 0 < m) :
    parseCSV t d m
      = { data := ((parseRecords t d).take (m + 1)).drop 1
          headers := ((parseRecords t d).take (m + 1)).headD []
          totalRows := (((parseRecords t d).take (m + 1)).drop 1).length } := by
  simp only [parseCSV]
  rw [if_pos hm, papaParse_pos t d (Nat.succ_pos m)]

/-- Unfolding of `parseCSV` for a zero row cap. -/
theorem parseCSV_unfold_zero (t : String) (d : Char) :
    parseCSV t d 0
      = { data := ((parseRecords t d).take 1).drop 1
          headers := ((parseRecords t d).take 1).headD []
          totalRows := (((parseRecords t d).take 1).drop 1).length } := by
  simp only [parseCSV]
  rw [if_neg (by omega), papaParse]
  simp

/-! ## Claims -/

/-- C1: for every text, delimiter and `maxRows > 0`, `parseCSV` returns a
table whose headers are the first produced record, whose data rows are the
subsequent records in original order, with at most `maxRows` data rows and
`totalRows` equal to the number of data rows; and
`parseCSV "h1,h2\n1,2\n3,4" ',' 10` yields headers `h1, h2`, rows
`[1,2], [3,4]` and row count 2. -/
theorem parseCSV_structure (t : String) (d : Char) (m : Nat) (hm : 0 < m) :
    (parseCSV t d m).headers = (parseRecords t d).headD []
    ∧ (parseCSV t d m).data = ((parseRecords t d).drop 1).take m
    ∧ (parseCSV t d m).totalRows = (parseCSV t d m).data.length
    ∧ (parseCSV t d m).data.length ≤ m
    ∧ parseCSV "h1,h2\n1,2\n3,4" ',' 10
        = { data := [["1", "2"], ["3", "4"]], headers := ["h1", "h2"], totalRows := 2 } := by
  rw [parseCSV_unfold t d m hm]
  refine ⟨headD_take _ m [], ?_, rfl, ?_, by decide⟩
  · simp [List.drop_take]
  · simp only [List.drop_take, Nat.add_sub_cancel]
    exact List.length_take_le _ _

/-- Witness for C1 at the claim's own example. -/
theorem parseCSV_structure_witness :
    0 < 10
    ∧ (parseCSV "h1,h2\n1,2\n3,4" ',' 10).data
        = ((parseRecords "h1,h2\n1,2\n3,4" ',').drop 1).take 10 :=
  ⟨by decide, (parseCSV_structure "h1,h2\n1,2\n3,4" ',' 10 (by decide)).2.1⟩

/-- C2: for every text and delimiter, `parseCSV` with `maxRows = 0` parses
only far enough to obtain the header record (the first produced record)
and returns a table with zero data rows. -/
theorem parseCSV_zero (t : String) (d : Char) :
    (parseCSV t d 0).data = []
    ∧ (parseCSV t d 0).totalRows = 0
    ∧ (parseCSV t d 0).headers = (parseRecords t d).headD [] := by
  rw [parseCSV_unfold_zero t d]
  refine ⟨?_, ?_, headD_take _ 0 []⟩ <;> rw [List.drop_take] <;> simp

/-- C3: `loadMoreRows` re-parses the text with cap
`currentRows + batchSize` and returns exactly the parsed data rows from
index `currentRows` on, with `hasMore` true exactly when the number of
parsed data rows reaches `currentRows + batchSize`; and on a 5-data-row
file with `currentRows = 2`, `batchSize = 2` it returns the rows at
indices 2 and 3 with `hasMore = true`. -/
theorem loadMoreRows_spec (t cfg : String) (cur batch : Nat) :
    (loadMoreRows t cfg cur batch).rows
      = ((parseCSV t (pipelineDelimiter t cfg) (cur + batch)).data).drop cur
    ∧ ((loadMoreRows t cfg cur batch).hasMore = true
        ↔ cur + batch ≤ (parseCSV t (pipelineDelimiter t cfg) (cur + batch)).totalRows)
    ∧ loadMoreRows "h\n1\n2\n3\n4\n5" "auto" 2 2
        = { rows := [["3"], ["4"]], hasMore := true } := by
  refine ⟨rfl, ?_, by decide⟩
  simp [loadMoreRows, ge_iff_le]

/-- C5: the single line `"a,b",c,"d""e"` with delimiter comma splits into
exactly the 3 fields `a,b` and `c` and `d"e` (delimiters inside a quoted
span are literal, a doubled quote is an escaped literal quote), and the
detector's occurrence count for comma on that line is 2 (the comma inside
the quoted span is not counted). -/
theorem quoted_line_spec :
    (parseCSV "\"a,b\",c,\"d\"\"e\"" ',' 10).headers = ["a,b", "c", "d\"e"]
    ∧ (parseCSV "\"a,b\",c,\"d\"\"e\"" ',' 10).headers.length = 3
    ∧ countDelimiterOccurrences "\"a,b\",c,\"d\"\"e\"" ',' = 2 := by
  decide

/-- C6: `validateCSV` is invalid with the "no headers" message when the
headers are empty, invalid with the "no data rows" message when the data
is empty, invalid with the "inconsistent column counts" message exactly
when more than 10% of the data rows have a field count different from the
header count, and valid otherwise; 3 mismatching rows of 20 are invalid
while 1 of 20 is valid. -/
theorem validateCSV_spec :
    (∀ pr : ParseResult,
      (validateCSV pr).valid
        = (decide (pr.headers.length ≠ 0) && decide (pr.data.length ≠ 0)
            && decide (10 * (pr.data.filter
                (fun row => row.length ≠ pr.headers.length)).length ≤ pr.data.length)))
    ∧ (∀ pr : ParseResult,
      (validateCSV pr).message
        = (if pr.headers.length = 0 then some "CSV file appears to be empty or has no headers"
           else if pr.data.length = 0 then some "CSV file has headers but no data rows"
           else if pr.data.length < 10 * (pr.data.filter
               (fun row => row.length ≠ pr.headers.length)).length then
             some ("Many rows have inconsistent column counts. Expected "
               ++ toString pr.headers.length ++ " columns.")
           else none))
    ∧ validateCSV { data := List.replicate 17 ["1", "2"] ++ List.replicate 3 ["1"],
                    headers := ["a", "b"], totalRows := 20 }
        = { valid := false,
            message := some "Many rows have inconsistent column counts. Expected 2 columns." }
    ∧ validateCSV { data := List.replicate 19 ["1", "2"] ++ List.replicate 1 ["1"],
                    headers := ["a", "b"], totalRows := 20 }
        = { valid := true, message := none } := by
  refine ⟨?_, ?_, by decide, by decide⟩ <;>
    · intro pr
      simp only [validateCSV]
      split_ifs <;> simp_all

/-- Whether an `Except` result is an error (the editor provider's failure
responses carry only a message and no table). -/
def isErr {ε α : Type} : Except ε α → Bool
  | .error _ => true
  | .ok _ => false

/-- C7: the initial load produces an error response — and hence no table,
the error branch of the result type carrying only a message — exactly when
the text is empty or whitespace-only or the structural validator rejects
the parsed table. -/
theorem loadCsvFile_error_iff (t cfg : String) (m : Nat) :
    isErr (loadCsvFile t cfg m) = true
      ↔ (trimChars t.data = []
         ∨ (validateCSV (parseCSV t (pipelineDelimiter t cfg) m)).valid = false) := by
  by_cases h1 : trimChars t.data = []
  · simp [loadCsvFile, h1, isErr]
  · by_cases h2 : (validateCSV (parseCSV t (pipelineDelimiter t cfg) m)).valid = false <;>
      simp [loadCsvFile, h1, h2, isErr]

/-- C10: when `currentRows` is at least the number of data rows produced
by the re-parse with cap `currentRows + 5000`, `loadMoreRows` returns the
empty row list and `hasMore = false` (slicing past the end of the row list
is total and yields the empty sequence). -/
theorem loadMoreRows_past_end (t cfg : String) (cur : Nat)
    (h : (parseCSV t (pipelineDelimiter t cfg) (cur + 5000)).totalRows ≤ cur) :
    loadMoreRows t cfg cur 5000 = { rows := [], hasMore := false } := by
  have hlen : (parseCSV t (pipelineDelimiter t cfg) (cur + 5000)).data.length ≤ cur := h
  simp only [loadMoreRows, MoreRows.mk.injEq]
  constructor
  · exact List.drop_eq_nil_of_le hlen
  · simp only [ge_iff_le, decide_eq_false_iff_not, not_le]
    omega

/-- Witness for C10 on a 1-data-row file with `currentRows = 5`. -/
theorem loadMoreRows_past_end_witness :
    (parseCSV "h\n1" (pipelineDelimiter "h\n1" "auto") (5 + 5000)).totalRows ≤ 5
    ∧ loadMoreRows "h\n1" "auto" 5 5000 = { rows := [], hasMore := false } :=
  ⟨by decide, loadMoreRows_past_end "h\n1" "auto" 5 (by decide)⟩

/-- A 1000-character line: 999 `'a'`s and a line feed. -/
def chunk1000 : List Char := List.replicate 999 'a' ++ ['\n']

/-- The first 10000 characters of the claim's uniform document: 9 line
breaks distributed over 9 blocks of 1000 characters, then 1000 plain
characters. -/
def samplePart : List Char :=
  chunk1000 ++ chunk1000 ++ chunk1000 ++ chunk1000 ++ chunk1000
    ++ chunk1000 ++ chunk1000 ++ chunk1000 ++ chunk1000 ++ List.replicate 1000 'a'

/-- The claim's example document: 100000 characters whose first 10000
contain exactly 9 line breaks. -/
def uniformDoc : String := String.mk (samplePart ++ List.replicate 90000 'a')

/-- A run of `'a'`s contains no line feed. -/
theorem filter_nl_replicate (n : Nat) :
    (List.replicate n 'a').filter (fun c => c = '\n') = [] := by
  induction n with
  | zero => rfl
  | succ k ih => simp [List.replicate_succ, List.filter_cons, ih]

/-- `estimateRowCount` on a 100000-character text whose 10000-character
sample holds exactly 9 line breaks. -/
theorem estimateRowCount_shape (p q : List Char)
    (hp : p.length = 10000) (hq : q.length = 90000)
    (hf : (p.filter (fun c => c = '\n')).length = 9) :
    estimateRowCount (String.mk (p ++ q)) = 90 := by
  have hdata : (String.mk (p ++ q)).data = p ++ q := rfl
  have hlen : (String.mk (p ++ q)).length = 100000 := by
    simp [String.length, hp, hq]
  simp only [estimateRowCount, hdata, hlen]
  have hmin : min 100000 10000 = 10000 := by decide
  rw [hmin]
  have htake : (p ++ q).take 10000 = p := by
    rw [← hp, List.take_left]
  rw [htake, hf]
  decide

/-- C8: `estimateRowCount` returns 1 when the first
`min(|text|, 10000)`-character sample contains no line breaks and
otherwise `max 1 (|text| * lineBreaksInSample / |sample|)`; the result is
always at least 1, and the 100000-character document with 9 line breaks in
its 10000-character sample estimates to 90. -/
theorem estimateRowCount_spec (content : String) :
    estimateRowCount content
      = (if ((content.data.take (min content.length 10000)).filter
            (fun c => c = '\n')).length = 0
         then 1
         else max 1 (content.length
            * ((content.data.take (min content.length 10000)).filter
                (fun c => c = '\n')).length
            / min content.length 10000))
    ∧ 1 ≤ estimateRowCount content
    ∧ estimateRowCount uniformDoc = 90 := by
  refine ⟨rfl, ?_, ?_⟩
  · simp only [estimateRowCount]
    split_ifs <;> simp
  · have hsingle : List.filter (fun c => decide (c = '\n')) ['\n'] = ['\n'] := rfl
    exact estimateRowCount_shape samplePart (List.replicate 90000 'a')
      (by simp only [samplePart, chunk1000, List.length_append, List.length_replicate,
            List.length_cons, List.length_nil])
      (by rw [List.length_replicate])
      (by simp only [samplePart, chunk1000, List.filter_append, filter_nl_replicate,
            hsingle, List.nil_append, List.append_nil, List.length_append,
            List.length_cons, List.length_nil])

/-- `scoreOf` on a count list of length at least two, written as a single
conditional: the claim's scoring rule (consistent nonzero count `C` scores
`C * 100`, otherwise first-line count times 10, which is 0 for a zero
first count). -/
theorem scoreOf_two (c1 c2 : Nat) (cs : List Nat) :
    scoreOf (c1 :: c2 :: cs)
      = (if (c1 :: c2 :: cs).all (fun c => c = c1) && decide (c1 > 0)
         then c1 * 100 else c1 * 10) := by
  simp only [scoreOf, List.isEmpty_cons, Bool.false_eq_true, if_false]
  by_cases h : ((c1 :: c2 :: cs).all (fun c => c = c1) && decide (c1 > 0)) = true
  · rw [if_pos h, if_pos h]
  · rw [if_neg h, if_neg h]
    by_cases h0 : c1 > 0
    · rw [if_pos h0]
    · rw [if_neg h0]
      omega

/-- Follows the claim's scoring words, as the reference definition for C4:
a candidate whose count outside quoted spans is identical across all
sampled lines and nonzero scores that count times 100, and otherwise the
first line's count times 10 (so a zero count scores 0). -/
def specScore (lines : List (List Char)) (d : Char) : Nat :=
  let counts := lines.map (fun line => countDelimAux d line false)
  let first := counts.headD 0
  if counts.all (fun c => c = first) && decide (first > 0) then first * 100
  else first * 10

/-- Follows the claim's selection words, as the reference definition for
C4: the strictly highest score wins, ties keep the earlier candidate in
the order comma, semicolon, tab, pipe, and comma is returned when all
scores are 0. -/
def specPick (lines : List (List Char)) : Char :=
  ([(',', specScore lines ','), (';', specScore lines ';'),
    ('\t', specScore lines '\t'), ('|', specScore lines '|')].foldl
      (fun best e => if e.2 > best.2 then e else best) (',', 0)).1

/-- C4: whenever the first 5 lines of the sample contain at least 2
non-blank ones, `detectDelimiter` on `"auto"` returns exactly the
candidate selected by the claim's scoring rule (`specScore`/`specPick`:
consistent nonzero count scores `C * 100`, inconsistent scores first-line
count times 10, strictly highest score wins, ties keep the earlier of
comma, semicolon, tab, pipe, and comma is returned when all scores are 0);
in particular a candidate with an identical nonzero count across the lines
is returned when that makes it the strict winner, as on
`a,b,c` / `1,2,3`, which yields comma. -/
theorem detectDelimiter_auto_spec (sample : String)
    (h2 : 2 ≤ (((splitLines sample.data).take 5).filter
        (fun line => trimChars line ≠ [])).length) :
    detectDelimiter sample "auto"
      = String.singleton (specPick (((splitLines sample.data).take 5).filter
          (fun line => trimChars line ≠ [])))
    ∧ detectDelimiter "a,b,c\n1,2,3" "auto" = "," := by
  refine ⟨?_, by decide⟩
  have hdispatch : detectDelimiter sample "auto" = detectAuto sample := by
    unfold detectDelimiter
    rw [if_neg (by decide)]
  rw [hdispatch]
  simp only [detectAuto]
  generalize hL : ((splitLines sample.data).take 5).filter
      (fun line => trimChars line ≠ []) = L at h2 ⊢
  obtain ⟨l1, l2, ls, rfl⟩ : ∃ x y zs, L = x :: y :: zs := by
    cases L with
    | nil => simp at h2
    | cons a as =>
      cases as with
      | nil => simp at h2
      | cons b bs => exact ⟨a, b, bs, rfl⟩
  rw [if_neg (by simp)]
  simp only [List.map_cons, List.map_nil, scoreOf_two, specPick, specScore,
    List.headD_cons]

/-- Witness for C4 on a two-line comma-consistent sample. -/
theorem detectDelimiter_auto_spec_witness :
    2 ≤ (((splitLines ("a,b\nc,d" : String).data).take 5).filter
        (fun line => trimChars line ≠ [])).length
    ∧ detectDelimiter "a,b\nc,d" "auto"
        = String.singleton (specPick (((splitLines ("a,b\nc,d" : String).data).take 5).filter
            (fun line => trimChars line ≠ []))) :=
  ⟨by decide, (detectDelimiter_auto_spec "a,b\nc,d" (by decide)).1⟩

/-- Plain fields: a character list free of quote characters and of the
delimiter forms a single field holding exactly those characters. -/
theorem splitFieldsAux_plain (d : Char) (l : List Char)
    (h : ∀ c ∈ l, c ≠ '"' ∧ c ≠ d) :
    ∀ acc, splitFieldsAux d l false acc = [acc.reverse ++ l] := by
  induction l with
  | nil => intro acc; simp [splitFieldsAux]
  | cons c cs ih =>
    intro acc
    rw [splitFieldsAux.eq_def]
    split <;> simp_all

/-- Plain record: a character list free of quote characters and line
breaks forms a single record holding exactly those characters. -/
theorem splitRecordsAux_plain (l : List Char)
    (h : ∀ c ∈ l, c ≠ '"' ∧ c ≠ '\n') :
    ∀ acc, splitRecordsAux l false acc = [acc.reverse ++ l] := by
  induction l with
  | nil => intro acc; simp [splitRecordsAux]
  | cons c cs ih =>
    intro acc
    rw [splitRecordsAux.eq_def]
    split <;> simp_all

/-- A quote-free, break-free prefix followed by a line break closes
exactly one record. -/
theorem splitRecordsAux_append (l : List Char)
    (h : ∀ c ∈ l, c ≠ '"' ∧ c ≠ '\n') :
    ∀ t acc, splitRecordsAux (l ++ '\n' :: t) false acc
      = (acc.reverse ++ l) :: splitRecordsAux t false [] := by
  induction l with
  | nil =>
    intro t acc
    rw [splitRecordsAux.eq_def]
    split <;> simp_all
    rename_i hne heq
    obtain ⟨h1, h2⟩ := heq
    subst h1
    subst h2
    simp
  | cons c cs ih =>
    intro t acc
    rw [splitRecordsAux.eq_def]
    split <;> simp_all
    rename_i hne heq
    obtain ⟨h1, h2⟩ := heq
    subst h1
    subst h2
    rw [ih]
    simp

/-- C9 as stated is false: `" "` is a field value containing no delimiter,
quote character or line break, yet parsing the table built from a header
line followed by it yields zero data rows, not one row holding `" "` —
the whitespace-only line is removed by greedy blank-line skipping. -/
theorem roundTrip_counterexample :
    (parseCSV ("h" ++ "\n" ++ " ") ',' 10).data = []
    ∧ (parseCSV ("h" ++ "\n" ++ " ") ',' 10).data ≠ [[" "]] := by
  decide

/-- C9 amended: for every field value that is not whitespace-only and
contains no occurrence of the delimiter, the quote character, or a line
break (and a header line under the same conditions), parsing the
single-field single-row table built from the header line followed by that
value yields exactly one data row whose single field is that exact
value. -/
theorem roundTrip_amended (hdr v : String) (d : Char) (m : Nat) (hm : 1 ≤ m)
    (hh : trimChars hdr.data ≠ []) (hv : trimChars v.data ≠ [])
    (hhc : ∀ c ∈ hdr.data, c ≠ d ∧ c ≠ '"' ∧ c ≠ '\n')
    (hvc : ∀ c ∈ v.data, c ≠ d ∧ c ≠ '"' ∧ c ≠ '\n') :
    (parseCSV (hdr ++ "\n" ++ v) d m).headers = [hdr]
    ∧ (parseCSV (hdr ++ "\n" ++ v) d m).data = [[v]] := by
  have hdata : (hdr ++ "\n" ++ v).data = hdr.data ++ '\n' :: v.data := by
    simp
  have hrecs : parseRecords (hdr ++ "\n" ++ v) d = [[hdr], [v]] := by
    unfold parseRecords
    rw [hdata]
    rw [splitRecordsAux_append hdr.data
      (fun c hc => ⟨(hhc c hc).2.1, (hhc c hc).2.2⟩)]
    rw [splitRecordsAux_plain v.data
      (fun c hc => ⟨(hvc c hc).2.1, (hvc c hc).2.2⟩)]
    simp only [List.reverse_nil, List.nil_append, List.filter_cons, List.filter_nil]
    rw [if_pos (by simpa using hh), if_pos (by simpa using hv)]
    simp only [List.map_cons, List.map_nil]
    rw [splitFieldsAux_plain d hdr.data
      (fun c hc => ⟨(hhc c hc).2.1, (hhc c hc).1⟩)]
    rw [splitFieldsAux_plain d v.data
      (fun c hc => ⟨(hvc c hc).2.1, (hvc c hc).1⟩)]
    simp
  rw [parseCSV_unfold _ _ _ (by omega), hrecs,
    List.take_of_length_le (by simp; omega)]
  exact ⟨rfl, rfl⟩

/-- Witness for C9's amended round-trip at header `h`, value `x`, comma,
cap 10. -/
theorem roundTrip_amended_witness :
    trimChars ("h" : String).data ≠ []
    ∧ trimChars ("x" : String).data ≠ []
    ∧ (parseCSV ("h" ++ "\n" ++ "x") ',' 10).data = [["x"]] :=
  ⟨by decide, by decide,
    (roundTrip_amended "h" "x" ',' 10 (by decide) (by decide) (by decide)
      (by decide) (by decide)).2⟩

end CsvTableView
